import Mathlib

/-!
Shallow embedding of the FoxESS → PVOutput integration
(`custom_components/pvoutput_foxess`), covering:

* `modbus_client.py`: `InvalidRegisterRanges` (`add` / `__contains__`),
  `ConnectionState`, `ImprovedModbusClient._update_connection_state`, and
  `ImprovedModbusClient._detect_parameter_style` /
  `read_holding_registers` call-convention dispatch;
* `sensor.py`: `FoxESSDataCoordinator._read_modbus_data` (raw register
  decoding, lambda/derived entries) and
  `PVOutputUploader.async_upload_data` (payload construction, required-key
  and credential gating, grid-voltage resolution).

Numeric values are modelled as `ℚ` (Python floats/ints after scaling),
raw register words as `Nat`, and the pymodbus transport as explicit
oracles so the I/O-free control flow of the Python code can be replayed.
-/

namespace FoxEssPV

/-! ## InvalidRegisterRanges (modbus_client.py lines 44-72) -/

/-- One contiguous range of registers: `Range(start, count)`. -/
structure RegRange where
  start : Nat
  count : Nat
deriving DecidableEq, Repr

/-- `InvalidRegisterRanges.add`: walk the list of ranges; if the register is
already covered, stop; if it is exactly at the end of a range, extend that
range by one; otherwise append a fresh single-register range at the end. -/
def rangesAdd : List RegRange → Nat → List RegRange
  | [], register => [⟨register, 1⟩]
  | x :: xs, register =>
    if x.start ≤ register ∧ register < x.start + x.count then
      x :: xs
    else if register = x.start + x.count then
      ⟨x.start, x.count + 1⟩ :: xs
    else
      x :: rangesAdd xs register

/-- `InvalidRegisterRanges.__contains__`: membership in any stored range. -/
def rangesContains (ranges : List RegRange) (item : Nat) : Bool :=
  ranges.any fun x => decide (x.start ≤ item ∧ item < x.start + x.count)

/-! ## Connection state machine (modbus_client.py lines 30-42, 378-403) -/

/-- `_NUM_FAILED_POLLS_FOR_DISCONNECTION = 5`. -/
def NUM_FAILED_POLLS_FOR_DISCONNECTION : Nat := 5

/-- `ConnectionState` enum. -/
inductive ConnectionState where
  | INITIAL
  | DISCONNECTED
  | CONNECTED
deriving DecidableEq, Repr

/-- The mutable connection-tracking fields of `ImprovedModbusClient`. -/
structure ClientState where
  connectionState : ConnectionState
  numFailedPollAttempts : Nat
  currentConnectionError : Option String
deriving DecidableEq, Repr

/-- Fields as initialised in `ImprovedModbusClient.__init__`. -/
def ClientState.initial : ClientState :=
  { connectionState := .INITIAL
    numFailedPollAttempts := 0
    currentConnectionError := none }

/-- `ImprovedModbusClient._update_connection_state(success, error)`.
The `error` argument models `str(error) if error else "Unknown error"`. -/
def updateConnectionState (s : ClientState) (success : Bool)
    (error : Option String) : ClientState :=
  if success then
    let s := { s with numFailedPollAttempts := 0 }
    match s.connectionState with
    | .INITIAL => { s with connectionState := .CONNECTED }
    | .DISCONNECTED =>
        { s with connectionState := .CONNECTED, currentConnectionError := none }
    | .CONNECTED => s
  else
    let s := { s with numFailedPollAttempts := s.numFailedPollAttempts + 1 }
    if s.numFailedPollAttempts ≥ NUM_FAILED_POLLS_FOR_DISCONNECTION then
      if s.connectionState ≠ .DISCONNECTED then
        { s with connectionState := .DISCONNECTED
                 currentConnectionError := some (error.getD "Unknown error") }
      else s
    else s

/-! ## Samples (the per-cycle key→value dict of sensor.py) -/

/-- A `Sample` models the Python dict `data`: insertion-ordered key→value
pairs with at most one entry per key. -/
abbrev Sample := List (String × ℚ)

/-- `data.get(key)`. -/
def lookupKey : Sample → String → Option ℚ
  | [], _ => none
  | (k, v) :: rest, key => if k = key then some v else lookupKey rest key

/-- `data[key] = value`: replace in place if the key exists, else append. -/
def setKey : Sample → String → ℚ → Sample
  | [], key, val => [(key, val)]
  | (k, v) :: rest, key, val =>
    if k = key then (k, val) :: rest else (k, v) :: setKey rest key val

/-! ## Register map entries (inverter_profiles.json shape used by sensor.py) -/

/-- One entry of the profile list: `{key, type, addresses, signed, scale,
sources}`.  `entryType` is the JSON `type` string (`"sensor"` or
`"lambda"`); `scale = none` models both a missing `scale` key and an
explicit `null`. -/
structure RegisterEntry where
  key : String
  entryType : String
  addresses : List Nat
  signed : Bool
  scale : Option ℚ
  sources : List String
deriving DecidableEq, Repr

/-- Word merging of `_read_modbus_data` (sensor.py lines 174-177):
`value = (registers[0] << 16) + registers[1]` when more than one address,
else `value = registers[0]`. -/
def mergedWords (registers : List Nat) (count : Nat) : Nat :=
  if count > 1 then (registers.headD 0) <<< 16 + registers.getD 1 0
  else registers.headD 0

/-- Signed conversion of `_read_modbus_data` (sensor.py lines 179-183):
`bit_length = 16 * count; if value & (1 << (bit_length - 1)):
value -= (1 << bit_length)`. -/
def signedWordsValue (registers : List Nat) (count : Nat) (signed : Bool) : Int :=
  if signed ∧ mergedWords registers count &&& (1 <<< (16 * count - 1)) ≠ 0 then
    (mergedWords registers count : Int) - ((1 <<< (16 * count) : Nat) : Int)
  else (mergedWords registers count : Int)

/-- Raw value decoding of `_read_modbus_data` (sensor.py lines 173-187):
merged words, sign conversion, then multiplication by `scale` when it is
present and non-null (lines 185-187). -/
def processRaw (registers : List Nat) (count : Nat) (signed : Bool)
    (scale : Option ℚ) : ℚ :=
  match scale with
  | some sc => (signedWordsValue registers count signed : ℚ) * sc
  | none => (signedWordsValue registers count signed : ℚ)

/-- Reinterpretation of an unsigned `bits`-wide word as a two's-complement
signed integer — the spec's "reinterpreted as a signed N-bit
two's-complement integer". -/
def toSigned (bits : Nat) (n : Nat) : Int :=
  if n < 2 ^ (bits - 1) then (n : Int) else (n : Int) - 2 ^ bits

/-! ## Lambda (derived) entries (sensor.py lines 199-208) -/

/-- One iteration of the lambda loop body: gather `data.get(s)` for each
source; when all are present store their sum under the entry's key,
otherwise leave `data` untouched.  Non-lambda entries are skipped. -/
def applyLambda (entry : RegisterEntry) (data : Sample) : Sample :=
  if entry.entryType = "lambda" then
    if (entry.sources.map (lookupKey data)).all (fun s => s.isSome) then
      setKey data entry.key (((entry.sources.map (lookupKey data)).filterMap id).sum)
    else data
  else data

/-- The second `for register in self.profile` loop of `_read_modbus_data`:
apply each lambda entry in declaration order. -/
def calcLambdas (profile : List RegisterEntry) (data : Sample) : Sample :=
  profile.foldl (fun d e => applyLambda e d) data

/-! ## The poll cycle (sensor.py `_read_modbus_data`, lines 153-210) -/

/-- Outcome of one `read_holding_registers` exchange as seen by the sensor
loop: a successful word list, a `ModbusClientFailedError`, or any other
exception. -/
inductive ReadResult where
  | ok (registers : List Nat)
  | modbusFailed (msg : String)
  | otherError (msg : String)
deriving DecidableEq, Repr

/-- The transport, as a pure oracle: address and count determine the
outcome of the exchange. -/
abbrev ReadOracle := Nat → Nat → ReadResult

/-- Coordinator-visible mutable state of the modbus client during a cycle:
connection-tracking fields plus `_detected_invalid_ranges`. -/
structure CoordinatorState where
  client : ClientState
  invalidRanges : List RegRange
deriving DecidableEq, Repr

/-- One iteration of the first `for register in self.profile` loop of
`_read_modbus_data`: skip non-sensor entries; skip addresses inside
`_detected_invalid_ranges`; otherwise read, decode and store on success,
or record a failed poll attempt on either exception path.  No branch ever
adds to the invalid ranges. -/
def readSensorEntry (oracle : ReadOracle) (entry : RegisterEntry)
    (data : Sample) (st : CoordinatorState) : Sample × CoordinatorState :=
  if entry.entryType = "sensor" then
    if rangesContains st.invalidRanges (entry.addresses.headD 0) then (data, st)
    else
      match oracle (entry.addresses.headD 0) entry.addresses.length with
      | .ok registers =>
          (setKey data entry.key
             (processRaw registers entry.addresses.length entry.signed entry.scale),
           { st with client := updateConnectionState st.client true none })
      | .modbusFailed msg =>
          (data, { st with client := updateConnectionState st.client false (some msg) })
      | .otherError msg =>
          (data, { st with client := updateConnectionState st.client false (some msg) })
  else (data, st)

/-- The whole sensor loop, in declaration order. -/
def readSensors (oracle : ReadOracle) (profile : List RegisterEntry)
    (data : Sample) (st : CoordinatorState) : Sample × CoordinatorState :=
  profile.foldl (fun acc e => readSensorEntry oracle e acc.1 acc.2) (data, st)

/-- `_read_modbus_data`: the sensor loop starting from an empty dict,
then the lambda loop over the same profile. -/
def readModbusData (oracle : ReadOracle) (profile : List RegisterEntry)
    (st : CoordinatorState) : Sample × CoordinatorState :=
  let r := readSensors oracle profile [] st
  (calcLambdas profile r.1, r.2)

/-! ## Call-convention negotiation (modbus_client.py lines 127-129, 147-203,
205-353) -/

/-- Result of probing the live transport with one candidate call shape:
a non-error response, an explicit modbus error response (detection falls
through to the next shape), or a `TypeError`/`AttributeError` from the
signature mismatch (also falls through). -/
inductive ProbeResult where
  | ok
  | errorResponse
  | typeError
deriving DecidableEq, Repr

/-- The pymodbus library as seen by `_detect_parameter_style`: the names
appearing in `inspect.signature(read_holding_registers)` and the outcome
of each candidate probe against the test address. -/
structure Transport where
  sigParams : List String
  probeDeviceId : ProbeResult
  probeSlave : ProbeResult
  probeUnit : ProbeResult
  probePositional : ProbeResult
  probeNoParam : ProbeResult
deriving DecidableEq, Repr

/-- The convention fields of `ImprovedModbusClient`:
`_use_positional` (a Python tri-state: `None`, `True`, `False`),
`_slave_param_name`, `_use_keyword_count`. -/
structure ConvState where
  usePositional : Option Bool
  slaveParamName : Option String
  useKeywordCount : Bool
deriving DecidableEq, Repr

/-- Field values set in `ImprovedModbusClient.__init__`. -/
def ConvState.initial : ConvState :=
  { usePositional := none, slaveParamName := none, useKeywordCount := false }

/-- `_detect_parameter_style`: first inspect the signature for
`device_id`/`slave`/`unit`; otherwise probe the shapes in order
(keyword `device_id` with keyword count, keyword `slave`, keyword `unit`,
positional, no device-id argument); if everything fails, default to the
keyword `device_id` convention.  Note the "no device-id argument" outcome
stores `usePositional = none` — the same value that means "not yet
detected". -/
def detectParameterStyle (t : Transport) : ConvState :=
  if t.sigParams.contains "device_id" then
    ⟨some false, some "device_id", true⟩
  else if t.sigParams.contains "slave" then
    ⟨some false, some "slave", false⟩
  else if t.sigParams.contains "unit" then
    ⟨some false, some "unit", false⟩
  else if t.probeDeviceId = .ok then
    ⟨some false, some "device_id", true⟩
  else if t.probeSlave = .ok then
    ⟨some false, some "slave", false⟩
  else if t.probeUnit = .ok then
    ⟨some false, some "unit", false⟩
  else if t.probePositional = .ok then
    ⟨some true, none, false⟩
  else if t.probeNoParam = .ok then
    ⟨none, none, false⟩
  else
    ⟨some false, some "device_id", true⟩

/-- The argument shape used for an actual register read. -/
inductive CallShape where
  | positional
  | keyword (paramName : String) (keywordCount : Bool)
  | noParam
deriving DecidableEq, Repr

/-- The dispatch at the top of `read_holding_registers` (lines 158-195):
`_use_positional is True` → positional, `is False` → keyword with the
detected name (falling back to `'slave'` when unset), otherwise no
device-id argument. -/
def readCallShape (s : ConvState) : CallShape :=
  match s.usePositional with
  | some true => .positional
  | some false => .keyword (s.slaveParamName.getD "slave") s.useKeywordCount
  | none => .noParam

/-- The convention-related control flow of `read_holding_registers`
(lines 153-195): run `_detect_parameter_style` when `_use_positional is
None`, then dispatch on the (possibly updated) fields.  Returns the new
convention state, the call shape used for this read, and whether the
detection/probe sequence ran during this read. -/
def readHoldingRegistersConv (t : Transport) (s : ConvState) :
    ConvState × CallShape × Bool :=
  let d := if s.usePositional = none then (detectParameterStyle t, true) else (s, false)
  (d.1, readCallShape d.1, d.2)

/-! ## PVOutput upload (sensor.py `PVOutputUploader.async_upload_data`,
lines 359-398) -/

/-- The four keys `async_upload_data` requires. -/
def requiredKeys : List String :=
  ["solar_energy_today", "pv_power_now", "grid_consumption_energy_today", "load_power"]

/-- Grid-voltage resolution (lines 372-374):
`data.get('rvolt')`, falling back to
`data.get('grid_voltage_R', data.get('rvolt_R', data.get('rvolt_A')))`. -/
def resolveGridVoltage (data : Sample) : Option ℚ :=
  match lookupKey data "rvolt" with
  | some v => some v
  | none =>
    match lookupKey data "grid_voltage_R" with
    | some v => some v
    | none =>
      match lookupKey data "rvolt_R" with
      | some v => some v
      | none => lookupKey data "rvolt_A"

/-- Python `int()` on a rational: truncation toward zero. -/
def pyInt (q : ℚ) : Int :=
  if 0 ≤ q then ⌊q⌋ else ⌈q⌉

/-- Round a rational to the nearest integer, ties to even
(Python's `round`). -/
def roundHalfEven (q : ℚ) : Int :=
  if q - ⌊q⌋ < 1/2 then ⌊q⌋
  else if q - ⌊q⌋ > 1/2 then ⌊q⌋ + 1
  else if ⌊q⌋ % 2 = 0 then ⌊q⌋ else ⌊q⌋ + 1

/-- Python `round(x, 2)`. -/
def pyRound2 (q : ℚ) : ℚ :=
  (roundHalfEven (q * 100) : ℚ) / 100

/-- The numeric fields of the POST body built at lines 376-387.  The
wall-clock fields `d` and `t` depend on real time and are not modelled. -/
structure Payload where
  v1 : Int
  v2 : Int
  v3 : Int
  v4 : Int
  v5 : Option ℚ
  v6 : Option ℚ
deriving DecidableEq, Repr

/-- `async_upload_data` with the data argument supplied: `none` means the
function returns without attempting any network call; `some p` means it
posts payload `p`.  Mirrors the source order: empty-data guard, required
keys guard, payload construction, then the API-key/system-id guard just
before the POST. -/
def asyncUploadData (apiKey systemId : String) (data : Sample) : Option Payload :=
  if data.isEmpty then none
  else if ¬ (requiredKeys.all fun k => (lookupKey data k).isSome) then none
  else
    let gridVoltage := resolveGridVoltage data
    let payload : Payload :=
      { v1 := pyInt ((lookupKey data "solar_energy_today").getD 0 * 1000)
        v2 := pyInt ((lookupKey data "pv_power_now").getD 0 * 1000)
        v3 := pyInt ((lookupKey data "grid_consumption_energy_today").getD 0 * 1000)
        v4 := pyInt ((lookupKey data "load_power").getD 0 * 1000)
        v5 := (lookupKey data "invtemp").map pyRound2
        v6 := gridVoltage.map pyRound2 }
    if apiKey = "" ∨ systemId = "" then none
    else some payload

/-- Spec-side rendering of "trying `rvolt`, then `grid_voltage_R`, then
`rvolt_R`, then `rvolt_A`, in that priority order, taking the first
present": the value of the first key of the list present in the sample. -/
def firstPresentKey (data : Sample) : List String → Option ℚ
  | [] => none
  | k :: ks =>
    match lookupKey data k with
    | some v => some v
    | none => firstPresentKey data ks

/-! ## Concrete fixtures used by witnesses and counterexamples -/

/-- The spec's example upload sample. -/
def sampleC6 : Sample :=
  [("solar_energy_today", 1234/1000), ("pv_power_now", 1/2),
   ("grid_consumption_energy_today", 2), ("load_power", 11/10),
   ("invtemp", 176/5), ("rvolt", 1152/5)]

/-- A raw sensor entry at address 100. -/
def entryA : RegisterEntry :=
  { key := "a", entryType := "sensor", addresses := [100],
    signed := false, scale := none, sources := [] }

/-- A derived entry summing the raw key `"a"`. -/
def entryL1 : RegisterEntry :=
  { key := "l1", entryType := "lambda", addresses := [],
    signed := false, scale := none, sources := ["a"] }

/-- A derived entry whose only source is the derived key `"l1"`. -/
def entryL2 : RegisterEntry :=
  { key := "l2", entryType := "lambda", addresses := [],
    signed := false, scale := none, sources := ["l1"] }

/-- An oracle whose every exchange fails with a device-side error frame
(`ModbusClientFailedError`). -/
def failingOracle : ReadOracle := fun _ _ => .modbusFailed "device error"

/-- An oracle answering every read with the single word 5. -/
def constOracle5 : ReadOracle := fun _ _ => .ok [5]

/-- Coordinator state at session start: fresh client fields and an empty
invalid-range set. -/
def CoordinatorState.initial : CoordinatorState :=
  { client := ClientState.initial, invalidRanges := [] }

/-- A pymodbus whose read signature exposes none of the device-id
parameter names and that only accepts the call shape without a device-id
argument. -/
def noParamOnlyTransport : Transport :=
  { sigParams := ["address", "count"]
    probeDeviceId := .typeError
    probeSlave := .typeError
    probeUnit := .typeError
    probePositional := .typeError
    probeNoParam := .ok }

/-- A pymodbus that only accepts the keyword `unit` call shape (and does
not reveal it in the inspected signature). -/
def unitOnlyTransport : Transport :=
  { sigParams := ["address", "count"]
    probeDeviceId := .typeError
    probeSlave := .errorResponse
    probeUnit := .ok
    probePositional := .typeError
    probeNoParam := .typeError }

/-! ## Sanity examples -/

example :
    (updateConnectionState ClientState.initial false (some "e")).numFailedPollAttempts = 1 := by
  decide

example :
    (updateConnectionState ClientState.initial true none).connectionState
      = ConnectionState.CONNECTED := by
  decide

example : processRaw [0xFFFF] 1 true none = -1 := by decide

example : processRaw [0xFFFF, 0xFFFE] 2 true none = -2 := by decide

example : processRaw [3] 1 true (some (1/10)) = 3/10 := by
  norm_num [processRaw, signedWordsValue, mergedWords]
  intro h
  exact absurd (by decide) h

example :
    (readHoldingRegistersConv unitOnlyTransport ConvState.initial).2.1
      = CallShape.keyword "unit" false := by
  decide

/-! ## Helper lemmas -/

theorem lookupKey_setKey (d : Sample) (k q : String) (v : ℚ) :
    lookupKey (setKey d k v) q = if q = k then some v else lookupKey d q := by
  induction d with
  | nil =>
    rcases eq_or_ne q k with h | h
    · subst h; simp [setKey, lookupKey]
    · simp [setKey, lookupKey, h, Ne.symm h]
  | cons hd tl ih =>
    obtain ⟨k0, v0⟩ := hd
    rcases eq_or_ne k0 k with h0 | h0
    · subst h0
      rcases eq_or_ne q k0 with h | h
      · subst h; simp [setKey, lookupKey]
      · simp [setKey, lookupKey, h, Ne.symm h]
    · rcases eq_or_ne k0 q with h | h
      · subst h
        simp [setKey, lookupKey, h0, Ne.symm h0]
      · simp [setKey, lookupKey, h0, h, ih]

theorem mem_rangesAdd (rs : List RegRange) (r x : Nat) :
    rangesContains (rangesAdd rs r) x = true
      ↔ (rangesContains rs x = true ∨ x = r) := by
  induction rs with
  | nil =>
    simp only [rangesAdd, rangesContains, List.any_cons, List.any_nil,
      Bool.or_false, decide_eq_true_eq, Bool.false_eq_true, false_or]
    omega
  | cons hd tl ih =>
    simp only [rangesAdd]
    split_ifs with h1 h2
    · -- register already covered by hd
      simp only [rangesContains, List.any_cons, Bool.or_eq_true,
        decide_eq_true_eq] at *
      constructor
      · intro h; exact Or.inl h
      · rintro (h | rfl)
        · exact h
        · exact Or.inl ⟨h1.1, h1.2⟩
    · -- register extends hd by one
      simp only [rangesContains, List.any_cons, Bool.or_eq_true,
        decide_eq_true_eq] at *
      constructor
      · rintro (h | h)
        · rcases Nat.lt_or_ge x (hd.start + hd.count) with hx | hx
          · exact Or.inl (Or.inl ⟨h.1, hx⟩)
          · right; omega
        · exact Or.inl (Or.inr h)
      · rintro ((h | h) | rfl)
        · exact Or.inl ⟨h.1, by omega⟩
        · exact Or.inr h
        · exact Or.inl ⟨by omega, by omega⟩
    · -- recurse into the tail
      simp only [rangesContains, List.any_cons, Bool.or_eq_true,
        decide_eq_true_eq] at *
      constructor
      · rintro (h | h)
        · exact Or.inl (Or.inl h)
        · rcases ih.mp h with h' | h'
          · exact Or.inl (Or.inr h')
          · exact Or.inr h'
      · rintro ((h | h) | rfl)
        · exact Or.inl h
        · exact Or.inr (ih.mpr (Or.inl h))
        · exact Or.inr (ih.mpr (Or.inr rfl))

theorem mem_foldl_rangesAdd (adds : List Nat) (rs : List RegRange) (x : Nat) :
    rangesContains (List.foldl rangesAdd rs adds) x = true
      ↔ (rangesContains rs x = true ∨ x ∈ adds) := by
  induction adds generalizing rs with
  | nil => simp
  | cons a as ih =>
    simp only [List.foldl_cons, ih, mem_rangesAdd, List.mem_cons]
    tauto

/-! ## C9 -/

/-- C9 counterexample: with `a = 10` and `count = 2`, inserting `a`,
`a+count`, then single units at the two range boundaries leaves TWO
internal ranges — adjacent ranges are never merged into one. -/
theorem c9_counterexample :
    (List.foldl rangesAdd [] [10, 12, 11, 13]).length = 2 := by
  decide

/-- C9 (amended): inserting `a` makes `a` a member; inserting `a` and
`a+2`, then single units at the two range boundaries, yields coverage
equal to the contiguous interval `[a, a+4)` of length `2*count`
(`count = 2`), but stored as two adjacent internal ranges rather than one
merged range. -/
theorem c9_amended_boundary_inserts :
    (∀ (rs : List RegRange) (a : Nat), rangesContains (rangesAdd rs a) a = true)
    ∧ (∀ a x : Nat,
        rangesContains (List.foldl rangesAdd [] [a, a + 2, a + 1, a + 3]) x
          = decide (a ≤ x ∧ x < a + 4))
    ∧ (∀ a : Nat,
        List.foldl rangesAdd [] [a, a + 2, a + 1, a + 3]
          = [⟨a, 2⟩, ⟨a + 2, 2⟩]) := by
  have hfold : ∀ a : Nat,
      List.foldl rangesAdd [] [a, a + 2, a + 1, a + 3] = [⟨a, 2⟩, ⟨a + 2, 2⟩] := by
    intro a
    simp [rangesAdd]
  refine ⟨?_, ?_, hfold⟩
  · intro rs a
    exact (mem_rangesAdd rs a a).mpr (Or.inr rfl)
  · intro a x
    rw [hfold]
    simp only [rangesContains, List.any_cons, List.any_nil, Bool.or_false]
    rw [← Bool.decide_or]
    exact decide_eq_decide.mpr (by omega)

/-! ## C10 -/

/-- C10: after any finite sequence of `add` calls starting from the empty
set, membership holds for exactly the addresses that were added —
coverage is never lost, never over-approximated, and is independent of
insertion order and internal range splitting. -/
theorem c10_add_coverage_exact (adds : List Nat) (x : Nat) :
    rangesContains (List.foldl rangesAdd [] adds) x = true ↔ x ∈ adds := by
  rw [mem_foldl_rangesAdd]
  simp [rangesContains]

/-! ## C3 -/

/-- C3: from any state with a zero consecutive-failure counter that is not
already Disconnected, five consecutive failures drive the state to
DISCONNECTED and record the error of the fifth (threshold-crossing)
failure; a single subsequent success restores CONNECTED, clears the
counter and the stored error. -/
theorem c3_disconnect_after_five_failures (s : ClientState)
    (hstate : s.connectionState ≠ ConnectionState.DISCONNECTED)
    (hcnt : s.numFailedPollAttempts = 0)
    (e1 e2 e3 e4 e5 : String) :
    let s5 := updateConnectionState (updateConnectionState (updateConnectionState
      (updateConnectionState (updateConnectionState s false (some e1))
        false (some e2)) false (some e3)) false (some e4)) false (some e5)
    s5.connectionState = ConnectionState.DISCONNECTED
    ∧ s5.currentConnectionError = some e5
    ∧ updateConnectionState s5 true none
        = { connectionState := ConnectionState.CONNECTED,
            numFailedPollAttempts := 0,
            currentConnectionError := none } := by
  obtain ⟨cs, n, err⟩ := s
  simp only at hcnt
  subst hcnt
  cases cs
  · simp [updateConnectionState, NUM_FAILED_POLLS_FOR_DISCONNECTION]
  · exact absurd rfl hstate
  · simp [updateConnectionState, NUM_FAILED_POLLS_FOR_DISCONNECTION]

/-- C3 witness at the freshly initialised client state. -/
theorem c3_witness :
    let s5 := updateConnectionState (updateConnectionState (updateConnectionState
      (updateConnectionState (updateConnectionState ClientState.initial false (some "a"))
        false (some "b")) false (some "c")) false (some "d")) false (some "e")
    s5.connectionState = ConnectionState.DISCONNECTED
    ∧ s5.currentConnectionError = some "e"
    ∧ updateConnectionState s5 true none
        = { connectionState := ConnectionState.CONNECTED,
            numFailedPollAttempts := 0,
            currentConnectionError := none } :=
  c3_disconnect_after_five_failures ClientState.initial (by decide) rfl "a" "b" "c" "d" "e"

/-! ## C5 -/

/-- C5: against a transport that only accepts the "no device-id argument"
shape, the probe sequence runs again on the second read (the cached
convention is stored as the Python `None` sentinel, indistinguishable from
"not yet detected"), whereas against a transport that only accepts the
`unit` keyword the second read does not re-probe. -/
theorem c5_noparam_convention_reprobes :
    (readHoldingRegistersConv noParamOnlyTransport ConvState.initial).2.1
        = CallShape.noParam
    ∧ (readHoldingRegistersConv noParamOnlyTransport ConvState.initial).2.2 = true
    ∧ (readHoldingRegistersConv noParamOnlyTransport
        (readHoldingRegistersConv noParamOnlyTransport ConvState.initial).1).2.2 = true
    ∧ (readHoldingRegistersConv unitOnlyTransport
        (readHoldingRegistersConv unitOnlyTransport ConvState.initial).1).2.2 = false := by
  decide

/-! ## C7 -/

/-- C7: the upload returns without any network call when any of the four
required keys is absent from the sample, or when the API key or system-id
credential is empty. -/
theorem c7_upload_skips_without_keys_or_credentials
    (apiKey systemId : String) (data : Sample)
    (h : (∃ k, k ∈ requiredKeys ∧ lookupKey data k = none)
        ∨ apiKey = "" ∨ systemId = "") :
    asyncUploadData apiKey systemId data = none := by
  rcases h with ⟨k, hk, hnone⟩ | h | h
  · have hfail : (requiredKeys.all fun k => (lookupKey data k).isSome) = false := by
      rw [List.all_eq_false]
      exact ⟨k, hk, by rw [hnone]; exact Bool.false_ne_true⟩
    simp [asyncUploadData, hfail]
  · simp [asyncUploadData, h]
  · simp [asyncUploadData, h]

/-- C7 witness: complete sample but empty API key. -/
theorem c7_witness :
    ((∃ k, k ∈ requiredKeys ∧ lookupKey sampleC6 k = none)
        ∨ "" = "" ∨ "sid" = "")
    ∧ asyncUploadData "" "sid" sampleC6 = none :=
  ⟨Or.inr (Or.inl rfl),
   c7_upload_skips_without_keys_or_credentials "" "sid" sampleC6 (Or.inr (Or.inl rfl))⟩

/-! ## C4 -/

theorem readSensorEntry_invalidRanges (oracle : ReadOracle) (e : RegisterEntry)
    (data : Sample) (st : CoordinatorState) :
    (readSensorEntry oracle e data st).2.invalidRanges = st.invalidRanges := by
  unfold readSensorEntry
  split_ifs <;> try rfl
  cases oracle (e.addresses.headD 0) e.addresses.length <;> rfl

theorem readSensorEntry_modbusFailed (oracle : ReadOracle) (entry : RegisterEntry)
    (data : Sample) (st : CoordinatorState) (msg : String)
    (hsensor : entry.entryType = "sensor")
    (hnotinv : rangesContains st.invalidRanges (entry.addresses.headD 0) = false)
    (horacle : oracle (entry.addresses.headD 0) entry.addresses.length
        = ReadResult.modbusFailed msg) :
    readSensorEntry oracle entry data st
      = (data, { st with client := updateConnectionState st.client false (some msg) }) := by
  unfold readSensorEntry
  rw [if_pos hsensor, if_neg (by rw [hnotinv]; exact Bool.false_ne_true), horacle]

theorem readSensors_invalidRanges (oracle : ReadOracle) (profile : List RegisterEntry)
    (data : Sample) (st : CoordinatorState) :
    (readSensors oracle profile data st).2.invalidRanges = st.invalidRanges := by
  induction profile generalizing data st with
  | nil => rfl
  | cons e rest ih =>
    simp only [readSensors, List.foldl_cons]
    exact (ih (readSensorEntry oracle e data st).1 (readSensorEntry oracle e data st).2).trans
      (readSensorEntry_invalidRanges oracle e data st)

/-- C4 counterexample: a poll cycle in which the only read fails with a
`ModbusClientFailedError` leaves the failing address OUTSIDE the
invalid-range set — `add` is never called, so later cycles will touch the
transport again for this address. -/
theorem c4_counterexample :
    rangesContains
      (readModbusData failingOracle [entryA] CoordinatorState.initial).2.invalidRanges
      100 = false := by
  decide

/-- C4 (amended): on a `ModbusClientFailedError` the key is omitted for
the cycle and the failure is counted into the connection state, but the
failing address range is NOT recorded: no code path of the coordinator
ever adds to the invalid-range set, which a whole cycle leaves unchanged. -/
theorem c4_amended_failure_omits_key_but_never_records_range :
    (∀ (oracle : ReadOracle) (entry : RegisterEntry) (data : Sample)
        (st : CoordinatorState) (msg : String),
      entry.entryType = "sensor" →
      rangesContains st.invalidRanges (entry.addresses.headD 0) = false →
      oracle (entry.addresses.headD 0) entry.addresses.length = .modbusFailed msg →
      readSensorEntry oracle entry data st
        = (data, { st with client := updateConnectionState st.client false (some msg) }))
    ∧ (∀ (oracle : ReadOracle) (profile : List RegisterEntry) (st : CoordinatorState),
        (readModbusData oracle profile st).2.invalidRanges = st.invalidRanges) := by
  constructor
  · intro oracle entry data st msg hsensor hnotinv horacle
    exact readSensorEntry_modbusFailed oracle entry data st msg hsensor hnotinv horacle
  · intro oracle profile st
    simp only [readModbusData]
    exact readSensors_invalidRanges oracle profile [] st

/-- C4 witness: the amended behaviour evaluated at the failing cycle. -/
theorem c4_witness :
    readSensorEntry failingOracle entryA [] CoordinatorState.initial
      = ([], { client := updateConnectionState ClientState.initial false (some "device error"),
               invalidRanges := [] }) :=
  c4_amended_failure_omits_key_but_never_records_range.1
    failingOracle entryA [] CoordinatorState.initial "device error" rfl rfl rfl

/-! ## C2 -/

theorem lookupKey_applyLambda_ne (e : RegisterEntry) (d : Sample) (k : String)
    (h : e.key ≠ k) :
    lookupKey (applyLambda e d) k = lookupKey d k := by
  unfold applyLambda
  split_ifs
  · rw [lookupKey_setKey, if_neg (Ne.symm h)]
  · rfl
  · rfl

theorem lookupKey_calcLambdas_ne :
    ∀ (l : List RegisterEntry) (d : Sample) (k : String),
      (∀ e ∈ l, e.key ≠ k) →
      lookupKey (calcLambdas l d) k = lookupKey d k := by
  intro l
  induction l with
  | nil => intro d k _; rfl
  | cons e rest ih =>
    intro d k h
    simp only [calcLambdas, List.foldl_cons]
    exact (ih (applyLambda e d) k (fun e' he' => h e' (List.mem_cons_of_mem _ he'))).trans
      (lookupKey_applyLambda_ne e d k (h e (List.mem_cons_self _ _)))

theorem applyLambda_eq_set (e : RegisterEntry) (d : Sample)
    (hlam : e.entryType = "lambda")
    (hall : (e.sources.map (lookupKey d)).all (fun s => s.isSome) = true) :
    applyLambda e d
      = setKey d e.key (((e.sources.map (lookupKey d)).filterMap id).sum) := by
  unfold applyLambda
  rw [if_pos hlam, if_pos hall]

theorem applyLambda_eq_self (e : RegisterEntry) (d : Sample)
    (hfail : (e.sources.map (lookupKey d)).all (fun s => s.isSome) = false) :
    applyLambda e d = d := by
  unfold applyLambda
  split_ifs with h1 h2 <;> try rfl
  rw [hfail] at h2
  exact Bool.noConfusion h2

/-- C2: for a derived (lambda) entry with a key unique in the profile:
after the lambda pass, the key maps to the sum of its sources' values
whenever every source is present in the data accumulated when the entry is
evaluated, and the key is absent from the result whenever some source is
absent at that point (and the key was not already present). -/
theorem c2_derived_entry_sum (profile pre post : List RegisterEntry)
    (e : RegisterEntry) (d0 : Sample)
    (hprof : profile = pre ++ e :: post)
    (hlam : e.entryType = "lambda")
    (hkeys : ∀ e' ∈ pre ++ post, e'.key ≠ e.key) :
    ((e.sources.map (lookupKey (calcLambdas pre d0))).all (fun s => s.isSome) = true →
      lookupKey (calcLambdas profile d0) e.key
        = some (((e.sources.map (lookupKey (calcLambdas pre d0))).filterMap id).sum))
    ∧ ((e.sources.map (lookupKey (calcLambdas pre d0))).all (fun s => s.isSome) = false →
       lookupKey d0 e.key = none →
       lookupKey (calcLambdas profile d0) e.key = none) := by
  subst hprof
  have hpostkeys : ∀ e' ∈ post, e'.key ≠ e.key :=
    fun e' he' => hkeys e' (List.mem_append_right _ he')
  have hprekeys : ∀ e' ∈ pre, e'.key ≠ e.key :=
    fun e' he' => hkeys e' (List.mem_append_left _ he')
  have hsplit : calcLambdas (pre ++ e :: post) d0
      = calcLambdas post (applyLambda e (calcLambdas pre d0)) := by
    simp only [calcLambdas, List.foldl_append, List.foldl_cons]
  constructor
  · intro hall
    rw [hsplit, lookupKey_calcLambdas_ne post _ _ hpostkeys,
        applyLambda_eq_set e _ hlam hall, lookupKey_setKey, if_pos rfl]
  · intro hfail h0
    rw [hsplit, lookupKey_calcLambdas_ne post _ _ hpostkeys,
        applyLambda_eq_self e _ hfail,
        lookupKey_calcLambdas_ne pre _ _ hprekeys, h0]

/-- C2 witness: a single derived entry over one present raw source. -/
theorem c2_witness :
    lookupKey (calcLambdas [entryL1] [("a", (3 : ℚ))]) "l1" = some 3 := by
  have h := (c2_derived_entry_sum [entryL1] [] [] entryL1 [("a", 3)] rfl rfl
    (by intro e' he'; simp at he')).1 rfl
  exact h.trans (by simp [entryL1, calcLambdas, lookupKey])

/-! ## C8 -/

/-- C8 counterexample: `l2` sums the derived key `l1`; the raw source of
`l1` was read and the dependency graph is acyclic, yet with `l2` declared
before `l1` the assembled sample has no `l2`, while the opposite order
produces it — the derived values are NOT invariant under permutation of
the derived entries. -/
theorem c8_counterexample :
    lookupKey (calcLambdas [entryL2, entryL1] [("a", (5 : ℚ))]) "l2" = none
    ∧ (lookupKey (calcLambdas [entryL1, entryL2] [("a", (5 : ℚ))]) "l2").isSome = true := by
  exact ⟨rfl, rfl⟩

/-- C8 (amended): derived-of-derived entries resolve correctly only when
the source derived entry is declared earlier: in that order both keys get
the correct sum. -/
theorem c8_amended_dependency_order (e1 e2 : RegisterEntry) (d0 : Sample)
    (h1 : e1.entryType = "lambda") (h2 : e2.entryType = "lambda")
    (hsrc : e2.sources = [e1.key]) (hne : e1.key ≠ e2.key)
    (hall : (e1.sources.map (lookupKey d0)).all (fun s => s.isSome) = true) :
    lookupKey (calcLambdas [e1, e2] d0) e1.key
      = some (((e1.sources.map (lookupKey d0)).filterMap id).sum)
    ∧ lookupKey (calcLambdas [e1, e2] d0) e2.key
      = some (((e1.sources.map (lookupKey d0)).filterMap id).sum) := by
  have hd1 : calcLambdas [e1, e2] d0
      = applyLambda e2 (setKey d0 e1.key
          (((e1.sources.map (lookupKey d0)).filterMap id).sum)) := by
    simp only [calcLambdas, List.foldl_cons, List.foldl_nil,
      applyLambda_eq_set e1 d0 h1 hall]
  have hlook1 : lookupKey (setKey d0 e1.key
      (((e1.sources.map (lookupKey d0)).filterMap id).sum)) e1.key
      = some (((e1.sources.map (lookupKey d0)).filterMap id).sum) := by
    rw [lookupKey_setKey, if_pos rfl]
  have hmap : e2.sources.map (lookupKey (setKey d0 e1.key
      (((e1.sources.map (lookupKey d0)).filterMap id).sum)))
      = [some (((e1.sources.map (lookupKey d0)).filterMap id).sum)] := by
    rw [hsrc]
    simp only [List.map_cons, List.map_nil]
    rw [lookupKey_setKey, if_pos rfl]
  have happ2 : applyLambda e2 (setKey d0 e1.key
      (((e1.sources.map (lookupKey d0)).filterMap id).sum))
      = setKey (setKey d0 e1.key (((e1.sources.map (lookupKey d0)).filterMap id).sum))
          e2.key (((e1.sources.map (lookupKey d0)).filterMap id).sum) := by
    rw [applyLambda_eq_set e2 _ h2 (by rw [hmap]; rfl), hmap,
      show (List.filterMap id
        [some (((e1.sources.map (lookupKey d0)).filterMap id).sum)]).sum
        = ((e1.sources.map (lookupKey d0)).filterMap id).sum from by simp]
  constructor
  · rw [hd1, happ2, lookupKey_setKey, if_neg hne, hlook1]
  · rw [hd1, happ2, lookupKey_setKey, if_pos rfl]

/-- C8 witness: the amended dependency-ordered profile evaluated at the
concrete fixture. -/
theorem c8_witness :
    lookupKey (calcLambdas [entryL1, entryL2] [("a", (5 : ℚ))]) "l1"
      = some (((entryL1.sources.map (lookupKey [("a", (5 : ℚ))])).filterMap id).sum)
    ∧ lookupKey (calcLambdas [entryL1, entryL2] [("a", (5 : ℚ))]) "l2"
      = some (((entryL1.sources.map (lookupKey [("a", (5 : ℚ))])).filterMap id).sum) :=
  c8_amended_dependency_order entryL1 entryL2 [("a", 5)] rfl rfl rfl (by decide) rfl

/-! ## C1 -/

theorem and_shiftLeft_one_ne_zero (n k : Nat) :
    (n &&& (1 <<< k) ≠ 0) ↔ n / 2 ^ k % 2 = 1 := by
  rw [Nat.shiftLeft_eq, one_mul, Nat.and_two_pow, Nat.testBit_to_div_mod]
  by_cases hd : n / 2 ^ k % 2 = 1
  · simp [hd]
  · simp [hd]

theorem signExtend_eq_toSigned (n bits : Nat) (hbits : 0 < bits) (hn : n < 2 ^ bits) :
    (if n &&& (1 <<< (bits - 1)) ≠ 0 then (n : Int) - ((1 <<< bits : Nat) : Int)
     else (n : Int)) = toSigned bits n := by
  have hsplit : 2 ^ bits = 2 * 2 ^ (bits - 1) := by
    conv_lhs => rw [show bits = (bits - 1) + 1 by omega]
    rw [pow_succ]
    ring
  have h2 : ((1 <<< bits : Nat) : Int) = (2 : Int) ^ bits := by
    rw [Nat.shiftLeft_eq, one_mul]
    push_cast
    ring
  rw [toSigned]
  by_cases hc : n < 2 ^ (bits - 1)
  · rw [if_pos hc, if_neg]
    rw [and_shiftLeft_one_ne_zero]
    have hz : n / 2 ^ (bits - 1) = 0 := Nat.div_eq_of_lt hc
    simp [hz]
  · rw [if_neg hc, if_pos, h2]
    rw [and_shiftLeft_one_ne_zero]
    have h1 : n / 2 ^ (bits - 1) = 1 := by
      have hlow : 2 ^ (bits - 1) ≤ n := Nat.le_of_not_lt hc
      have hhigh : n < 2 * 2 ^ (bits - 1) := by rw [← hsplit]; exact hn
      exact Nat.div_eq_of_lt_le (by rw [one_mul]; exact hlow) (by exact hhigh)
    simp [h1]

/-- C1: a signed two-address entry decodes raw words `[hi, lo]` as
`(hi<<16)|lo` reinterpreted as a signed 32-bit two's-complement integer,
and a signed one-address entry decodes `[w]` as the signed 16-bit
reinterpretation of `w`; the scale factor (1 when absent) is multiplied in
after the sign extension. -/
theorem c1_signed_decoding :
    (∀ hi lo : Nat, hi < 2 ^ 16 → lo < 2 ^ 16 → ∀ scale : Option ℚ,
        processRaw [hi, lo] 2 true scale
          = (toSigned 32 ((hi <<< 16) ||| lo) : ℚ) * scale.getD 1)
    ∧ (∀ w : Nat, w < 2 ^ 16 → ∀ scale : Option ℚ,
        processRaw [w] 1 true scale = (toSigned 16 w : ℚ) * scale.getD 1) := by
  constructor
  · intro hi lo hhi hlo scale
    have hor : (hi <<< 16) ||| lo = hi <<< 16 + lo := by
      rw [Nat.shiftLeft_eq, mul_comm]
      exact (Nat.mul_add_lt_is_or hlo hi).symm
    have hmm : mergedWords [hi, lo] 2 = hi <<< 16 + lo := by
      norm_num [mergedWords]
    have hlt : hi <<< 16 + lo < 2 ^ 32 := by
      have e1 : (2 : Nat) ^ 16 = 65536 := by norm_num
      have e2 : (2 : Nat) ^ 32 = 4294967296 := by norm_num
      rw [Nat.shiftLeft_eq, e1]
      rw [e1] at hhi
      rw [e1] at hlo
      rw [e2]
      omega
    have hsv : signedWordsValue [hi, lo] 2 true = toSigned 32 ((hi <<< 16) ||| lo) := by
      rw [hor]
      unfold signedWordsValue
      rw [hmm]
      simp only [eq_self_iff_true, true_and]
      exact signExtend_eq_toSigned (hi <<< 16 + lo) 32 (by norm_num) hlt
    cases scale with
    | none => simp only [processRaw, hsv, Option.getD, mul_one]
    | some sc => simp only [processRaw, hsv, Option.getD]
  · intro w hw scale
    have hmm : mergedWords [w] 1 = w := by
      norm_num [mergedWords]
    have hsv : signedWordsValue [w] 1 true = toSigned 16 w := by
      unfold signedWordsValue
      rw [hmm]
      simp only [eq_self_iff_true, true_and]
      exact signExtend_eq_toSigned w 16 (by norm_num) hw
    cases scale with
    | none => simp only [processRaw, hsv, Option.getD, mul_one]
    | some sc => simp only [processRaw, hsv, Option.getD]

/-- C1 witness: both widths at concrete negative words, without scale. -/
theorem c1_witness :
    processRaw [0xFFFF, 0xFFFE] 2 true none
      = (toSigned 32 ((0xFFFF <<< 16) ||| 0xFFFE) : ℚ) * (none : Option ℚ).getD 1
    ∧ processRaw [0x8000] 1 true none
      = (toSigned 16 0x8000 : ℚ) * (none : Option ℚ).getD 1 :=
  ⟨c1_signed_decoding.1 0xFFFF 0xFFFE (by norm_num) (by norm_num) none,
   c1_signed_decoding.2 0x8000 (by norm_num) none⟩

/-! ## C6 -/

/-- C6: the spec's example sample produces exactly the payload
`v1=1234, v2=500, v3=2000, v4=1100, v5=35.2, v6=230.4`; and on every
sample the grid voltage is the first value present among `rvolt`,
`grid_voltage_R`, `rvolt_R`, `rvolt_A`, in that priority order. -/
theorem c6_payload_fields_and_voltage_priority :
    asyncUploadData "k" "sid" sampleC6
      = some { v1 := 1234, v2 := 500, v3 := 2000, v4 := 1100,
               v5 := some (176/5), v6 := some (1152/5) }
    ∧ ∀ data : Sample,
        resolveGridVoltage data
          = firstPresentKey data ["rvolt", "grid_voltage_R", "rvolt_R", "rvolt_A"] := by
  constructor
  · have h1 : lookupKey sampleC6 "solar_energy_today" = some (1234/1000) := rfl
    have h2 : lookupKey sampleC6 "pv_power_now" = some (1/2) := rfl
    have h3 : lookupKey sampleC6 "grid_consumption_energy_today" = some 2 := rfl
    have h4 : lookupKey sampleC6 "load_power" = some (11/10) := rfl
    have h5 : lookupKey sampleC6 "invtemp" = some (176/5) := rfl
    have h6 : lookupKey sampleC6 "rvolt" = some (1152/5) := rfl
    have h0 : sampleC6.isEmpty = false := rfl
    norm_num [asyncUploadData, requiredKeys, resolveGridVoltage,
      h0, h1, h2, h3, h4, h5, h6, pyInt, pyRound2, roundHalfEven]
    rintro (h | h) <;> exact absurd h (by decide)
  · intro data
    simp only [resolveGridVoltage, firstPresentKey]
    cases lookupKey data "rvolt" <;>
      cases lookupKey data "grid_voltage_R" <;>
        cases lookupKey data "rvolt_R" <;>
          cases lookupKey data "rvolt_A" <;> rfl

end FoxEssPV
